import Mathlib

/-!
Shallow embedding of the analytics-hub edge functions:
the per-key fixed-window rate limiter and ingestion pipeline
(`src/unnamed/part_001`), the summary aggregation endpoint
(`src/unnamed/part_002`), key registration
(`src/supabase/functions/auth-register/index.ts`) and key revocation
(`src/supabase/functions/auth-revoke/index.ts`).

Times are naturals (milliseconds since epoch).  The SHA-256 hex hash and
the JavaScript `Date` parser are external runtime facilities; they enter
the embedding as explicit function parameters (`hash : String → String`,
`jsParseDate : String → Option Nat`, where `none` models an Invalid Date,
on which `toISOString` throws).  JavaScript string truthiness (empty
string is falsy) is modelled explicitly wherever the source relies on it.
-/

namespace AnalyticsHub

/-- One per-key window of the in-memory rate limiter:
`{ count: number; resetAt: number }`. -/
structure RateWindow where
  count : Nat
  resetAt : Nat
deriving DecidableEq, Repr

/-- The module-level `rateLimitMap : Map<string, RateWindow>`, as an
association list keyed by the api-key hash. -/
abbrev RateLimitMap := List (String × RateWindow)

/-- `const RATE_LIMIT = 100` (requests per window). -/
def RATE_LIMIT : Nat := 100

/-- `const RATE_LIMIT_WINDOW = 60000` (one minute in milliseconds). -/
def RATE_LIMIT_WINDOW : Nat := 60000

/-- `rateLimitMap.get(k)`. -/
def rlFind (m : RateLimitMap) (k : String) : Option RateWindow :=
  match m with
  | [] => none
  | p :: rest => if p.1 = k then some p.2 else rlFind rest k

/-- `rateLimitMap.set(k, w)`: a JS `Map` keeps one binding per key, so
replace the binding in place when present, else append. -/
def rlSet (m : RateLimitMap) (k : String) (w : RateWindow) : RateLimitMap :=
  match m with
  | [] => [(k, w)]
  | p :: rest => if p.1 = k then (k, w) :: rest else p :: rlSet rest k w

/-- `checkRateLimit(apiKeyHash)`, with the current time and the map state
passed explicitly.  Mirrors the source: reset (count 1, admit) when there
is no record or `now > record.resetAt`; reject without mutation when
`record.count >= RATE_LIMIT`; otherwise increment and admit. -/
def checkRateLimit (apiKeyHash : String) (now : Nat) (m : RateLimitMap) :
    Bool × RateLimitMap :=
  match rlFind m apiKeyHash with
  | none => (true, rlSet m apiKeyHash ⟨1, now + RATE_LIMIT_WINDOW⟩)
  | some record =>
    if now > record.resetAt then
      (true, rlSet m apiKeyHash ⟨1, now + RATE_LIMIT_WINDOW⟩)
    else if record.count ≥ RATE_LIMIT then
      (false, m)
    else
      (true, rlSet m apiKeyHash ⟨record.count + 1, record.resetAt⟩)

/-- Run a list of timestamped admission attempts for one key, collecting
the admit/reject verdicts and threading the map state. -/
def runCalls (key : String) (m : RateLimitMap) (ts : List Nat) :
    List Bool × RateLimitMap :=
  match ts with
  | [] => ([], m)
  | t :: rest =>
    let r := checkRateLimit key t m
    let rr := runCalls key r.2 rest
    (r.1 :: rr.1, rr.2)

/-- Replay a whole trace of `(key, time)` admission attempts from the
empty map, returning the final limiter state. -/
def runTrace (calls : List (String × Nat)) : RateLimitMap :=
  calls.foldl (fun m c => (checkRateLimit c.1 c.2 m).2) []

/-- The rate-limiter state invariant: every window present in the map has
`1 ≤ count ≤ RATE_LIMIT`. -/
def RLInv (m : RateLimitMap) : Prop :=
  ∀ k w, rlFind m k = some w → 1 ≤ w.count ∧ w.count ≤ RATE_LIMIT

-- Basic lemmas about the association-list map operations.

theorem rlFind_rlSet_self (m : RateLimitMap) (k : String) (w : RateWindow) :
    rlFind (rlSet m k w) k = some w := by
  induction m with
  | nil => simp [rlFind, rlSet]
  | cons p rest ih =>
    by_cases hp : p.1 = k
    · simp [rlFind, rlSet, hp]
    · simp [rlFind, rlSet, hp, ih]

theorem rlFind_rlSet_other (m : RateLimitMap) (k k' : String) (w : RateWindow)
    (hne : k' ≠ k) : rlFind (rlSet m k w) k' = rlFind m k' := by
  induction m with
  | nil =>
    have hk : ¬ k = k' := fun h => hne h.symm
    simp [rlFind, rlSet, hk]
  | cons p rest ih =>
    by_cases hp : p.1 = k
    · have hk : ¬ k = k' := fun h => hne h.symm
      have hpk : ¬ p.1 = k' := by rw [hp]; exact hk
      simp [rlFind, rlSet, hp, hpk, hk]
    · by_cases hp' : p.1 = k'
      · simp [rlFind, rlSet, hp, hp', hne]
      · simp [rlFind, rlSet, hp, hp', ih]

-- Branch lemmas for `checkRateLimit`, one per source branch.

theorem checkRateLimit_fresh (k : String) (now : Nat) (m : RateLimitMap)
    (h : rlFind m k = none) :
    checkRateLimit k now m = (true, rlSet m k ⟨1, now + RATE_LIMIT_WINDOW⟩) := by
  simp [checkRateLimit, h]

theorem checkRateLimit_reset (k : String) (now : Nat) (m : RateLimitMap)
    (w : RateWindow) (h : rlFind m k = some w) (hr : now > w.resetAt) :
    checkRateLimit k now m = (true, rlSet m k ⟨1, now + RATE_LIMIT_WINDOW⟩) := by
  simp [checkRateLimit, h, hr]

theorem checkRateLimit_reject (k : String) (now : Nat) (m : RateLimitMap)
    (w : RateWindow) (h : rlFind m k = some w) (hr : ¬ now > w.resetAt)
    (hc : w.count ≥ RATE_LIMIT) :
    checkRateLimit k now m = (false, m) := by
  simp [checkRateLimit, h, hr, hc]

theorem checkRateLimit_increment (k : String) (now : Nat) (m : RateLimitMap)
    (w : RateWindow) (h : rlFind m k = some w) (hr : ¬ now > w.resetAt)
    (hc : ¬ w.count ≥ RATE_LIMIT) :
    checkRateLimit k now m = (true, rlSet m k ⟨w.count + 1, w.resetAt⟩) := by
  simp [checkRateLimit, h, hr, hc]

/-- Verdict sequence for a run of in-window calls for a key whose window
holds count `c`: the `i`-th call (0-based) is admitted iff `c + i` is
still below capacity. -/
theorem runCalls_counts (key : String) (ts : List Nat) :
    ∀ (m : RateLimitMap) (c r : Nat), rlFind m key = some ⟨c, r⟩ →
    (∀ t ∈ ts, t ≤ r) →
    (runCalls key m ts).1
      = (List.range ts.length).map (fun i => decide (c + i < RATE_LIMIT)) := by
  induction ts with
  | nil => intro m c r _ _; simp [runCalls]
  | cons t rest ih =>
    intro m c r hf hw
    have ht : ¬ t > r := not_lt.mpr (hw t (by simp))
    have hw' : ∀ u ∈ rest, u ≤ r := fun u hu => hw u (by simp [hu])
    by_cases hc : c ≥ RATE_LIMIT
    · have hstep : checkRateLimit key t m = (false, m) :=
        checkRateLimit_reject key t m ⟨c, r⟩ hf ht hc
      have htail := ih m c r hf hw'
      simp only [runCalls, hstep, htail, List.length_cons,
        List.range_succ_eq_map, List.map_cons, List.map_map]
      congr 1
      · symm
        rw [decide_eq_false_iff_not]
        omega
      · apply List.map_congr_left
        intro i _
        simp only [Function.comp_apply, decide_eq_decide]
        omega
    · have hstep :
          checkRateLimit key t m = (true, rlSet m key ⟨c + 1, r⟩) :=
        checkRateLimit_increment key t m ⟨c, r⟩ hf ht hc
      have hf' : rlFind (rlSet m key ⟨c + 1, r⟩) key = some ⟨c + 1, r⟩ :=
        rlFind_rlSet_self m key ⟨c + 1, r⟩
      have htail := ih (rlSet m key ⟨c + 1, r⟩) (c + 1) r hf' hw'
      simp only [runCalls, hstep, htail, List.length_cons,
        List.range_succ_eq_map, List.map_cons, List.map_map]
      congr 1
      · symm
        rw [decide_eq_true_eq]
        omega
      · apply List.map_congr_left
        intro i _
        simp only [Function.comp_apply, decide_eq_decide]
        omega

/-- C2: for a fresh key, the opening call and the next 99 in-window calls
are admitted and the 101st in-window call is rejected; moreover a fresh
key, or a call past the window's reset instant, resets the window to
count 1 and reset instant `now + 60s` and is admitted. -/
theorem rate_limit_window_behavior (key : String) (t0 : Nat)
    (rest : List Nat) (m : RateLimitMap)
    (hfresh : rlFind m key = none)
    (hlen : rest.length = RATE_LIMIT)
    (hwin : ∀ t ∈ rest, t ≤ t0 + RATE_LIMIT_WINDOW) :
    (runCalls key m (t0 :: rest)).1
      = List.replicate RATE_LIMIT true ++ [false]
    ∧ (∀ (k : String) (now : Nat) (m' : RateLimitMap),
        rlFind m' k = none →
        checkRateLimit k now m'
          = (true, rlSet m' k ⟨1, now + RATE_LIMIT_WINDOW⟩))
    ∧ (∀ (k : String) (now : Nat) (m' : RateLimitMap) (w : RateWindow),
        rlFind m' k = some w → now > w.resetAt →
        checkRateLimit k now m'
          = (true, rlSet m' k ⟨1, now + RATE_LIMIT_WINDOW⟩)) := by
  refine ⟨?_, checkRateLimit_fresh, checkRateLimit_reset⟩
  have hstep := checkRateLimit_fresh key t0 m hfresh
  have hf1 : rlFind (rlSet m key ⟨1, t0 + RATE_LIMIT_WINDOW⟩) key
      = some ⟨1, t0 + RATE_LIMIT_WINDOW⟩ :=
    rlFind_rlSet_self m key ⟨1, t0 + RATE_LIMIT_WINDOW⟩
  have htail := runCalls_counts key rest
    (rlSet m key ⟨1, t0 + RATE_LIMIT_WINDOW⟩) 1 (t0 + RATE_LIMIT_WINDOW)
    hf1 hwin
  simp only [runCalls, hstep, htail, hlen]
  have hmap : (List.range RATE_LIMIT).map (fun i => decide (1 + i < RATE_LIMIT))
      = List.replicate (RATE_LIMIT - 1) true ++ [false] := by decide
  rw [hmap]
  decide

/-- Preservation of the window invariant by a single admission check. -/
theorem RLInv_checkRateLimit (k : String) (now : Nat) (m : RateLimitMap)
    (hm : RLInv m) : RLInv (checkRateLimit k now m).2 := by
  rcases hret : rlFind m k with _ | w
  · rw [checkRateLimit_fresh k now m hret]
    intro k' w' hw'
    by_cases hk : k' = k
    · subst hk
      rw [rlFind_rlSet_self] at hw'
      cases hw'
      constructor <;> simp [RATE_LIMIT]
    · rw [rlFind_rlSet_other m k k' _ hk] at hw'
      exact hm k' w' hw'
  · by_cases hr : now > w.resetAt
    · rw [checkRateLimit_reset k now m w hret hr]
      intro k' w' hw'
      by_cases hk : k' = k
      · subst hk
        rw [rlFind_rlSet_self] at hw'
        cases hw'
        constructor <;> simp [RATE_LIMIT]
      · rw [rlFind_rlSet_other m k k' _ hk] at hw'
        exact hm k' w' hw'
    · by_cases hc : w.count ≥ RATE_LIMIT
      · rw [checkRateLimit_reject k now m w hret hr hc]
        exact hm
      · rw [checkRateLimit_increment k now m w hret hr hc]
        intro k' w' hw'
        by_cases hk : k' = k
        · subst hk
          rw [rlFind_rlSet_self] at hw'
          cases hw'
          refine ⟨?_, ?_⟩
          · show 1 ≤ w.count + 1
            omega
          · show w.count + 1 ≤ RATE_LIMIT
            omega
        · rw [rlFind_rlSet_other m k k' _ hk] at hw'
          exact hm k' w' hw'

theorem RLInv_foldl (calls : List (String × Nat)) :
    ∀ m : RateLimitMap, RLInv m →
    RLInv (calls.foldl (fun m c => (checkRateLimit c.1 c.2 m).2) m) := by
  induction calls with
  | nil => intro m hm; simpa using hm
  | cons c rest ih =>
    intro m hm
    simp only [List.foldl_cons]
    exact ih _ (RLInv_checkRateLimit c.1 c.2 m hm)

/-- C9: after any sequence of admission calls from the empty map, every
window present satisfies `1 ≤ count ≤ 100`; a rejected call leaves the map
unchanged; and once a call for a key is rejected, every later call in the
same window (at or before the stored reset instant) is rejected too. -/
theorem rate_limiter_state_invariant :
    (∀ calls : List (String × Nat), RLInv (runTrace calls))
    ∧ (∀ (k : String) (now : Nat) (m : RateLimitMap),
        (checkRateLimit k now m).1 = false → (checkRateLimit k now m).2 = m)
    ∧ (∀ (k : String) (now now' : Nat) (m : RateLimitMap) (w : RateWindow),
        rlFind m k = some w →
        (checkRateLimit k now m).1 = false →
        now' ≤ w.resetAt →
        (checkRateLimit k now' m).1 = false) := by
  refine ⟨?_, ?_, ?_⟩
  · intro calls
    exact RLInv_foldl calls [] (by intro k w h; simp [rlFind] at h)
  · intro k now m hfalse
    rcases hret : rlFind m k with _ | w
    · rw [checkRateLimit_fresh k now m hret] at hfalse ⊢
      simp at hfalse
    · by_cases hr : now > w.resetAt
      · rw [checkRateLimit_reset k now m w hret hr] at hfalse
        simp at hfalse
      · by_cases hc : w.count ≥ RATE_LIMIT
        · rw [checkRateLimit_reject k now m w hret hr hc]
        · rw [checkRateLimit_increment k now m w hret hr hc] at hfalse
          simp at hfalse
  · intro k now now' m w hret hfalse hwin
    have hc : w.count ≥ RATE_LIMIT := by
      by_contra hc
      by_cases hr : now > w.resetAt
      · rw [checkRateLimit_reset k now m w hret hr] at hfalse
        simp at hfalse
      · rw [checkRateLimit_increment k now m w hret hr hc] at hfalse
        simp at hfalse
    rw [checkRateLimit_reject k now' m w hret (not_lt.mpr hwin) hc]

/-! ## Key store, event store and the ingestion pipeline -/

/-- A row of the `api_keys` table (the columns the edge functions read). -/
structure ApiKeyRecord where
  id : String
  app_id : String
  user_id : String
  key_hash : String
  is_active : Bool
  expires_at : Option Nat
  last_used_at : Option Nat
  revoked_at : Option Nat
deriving DecidableEq, Repr

/-- A row of the `analytics_events` table (the columns the edge functions
read and write). -/
structure AnalyticsEvent where
  app_id : String
  event : String
  url : String
  referrer : Option String
  device : Option String
  ip_address : Option String
  user_agent : Option String
  browser : Option String
  os : Option String
  screen_size : Option String
  timestamp : Nat
deriving DecidableEq, Repr

/-- The optional `metadata` object of an ingestion payload. -/
structure EventMetadata where
  browser : Option String
  os : Option String
  screenSize : Option String
deriving DecidableEq, Repr

/-- The JSON body of `POST /events` (`AnalyticsEvent` in the source;
`none` models an absent JSON field). -/
structure EventPayload where
  event : String
  url : String
  referrer : Option String
  device : Option String
  ipAddress : Option String
  timestamp : Option String
  metadata : Option EventMetadata
deriving DecidableEq, Repr

/-- An ingestion request: the `x-api-key` header, the `user-agent`
header, and the parsed body. -/
structure IngestRequest where
  apiKeyHeader : Option String
  userAgentHeader : Option String
  payload : EventPayload
deriving DecidableEq, Repr

/-- The state the ingestion endpoint touches: the two tables plus the
in-memory rate limiter. -/
structure ServerState where
  apiKeys : List ApiKeyRecord
  events : List AnalyticsEvent
  rateLimits : RateLimitMap
deriving DecidableEq, Repr

/-- JavaScript `x || null` on an optional string: the empty string is
falsy, so both an absent field and `""` become `null`. -/
def jsOrNull (o : Option String) : Option String :=
  match o with
  | none => none
  | some s => if s = "" then none else some s

/-- `metadata?.browser || null` and friends. -/
def metaField (m : Option EventMetadata)
    (f : EventMetadata → Option String) : Option String :=
  match m with
  | none => none
  | some md => jsOrNull (f md)

/-- Supabase `.select(...).eq('key_hash', h).single()`: succeeds exactly
when one row matches. -/
def lookupSingle (ks : List ApiKeyRecord) (h : String) :
    Option ApiKeyRecord :=
  match ks.filter (fun k => k.key_hash = h) with
  | [k] => some k
  | _ => none

/-- The key-record expiry test of the ingestion handler:
`apiKeyRecord.expires_at && new Date(apiKeyRecord.expires_at) < new Date()`. -/
def isExpired (rec : ApiKeyRecord) (now : Nat) : Bool :=
  match rec.expires_at with
  | none => false
  | some t => t < now

/-- Outcome taxonomy of the authenticator portion of the ingestion
handler. -/
inductive AuthResult where
  | success (appId : String)
  | missingCredential
  | invalidCredential
  | revoked
  | expired
deriving DecidableEq, Repr

/-- The credential checks of the ingestion handler in source order
(missing header, hash lookup, active flag, expiry), without the rate
limiter, which the handler interleaves after the header check. -/
def authenticate (hash : String → String) (keys : List ApiKeyRecord)
    (now : Nat) (cred : Option String) : AuthResult :=
  match cred with
  | none => .missingCredential
  | some c =>
    match lookupSingle keys (hash c) with
    | none => .invalidCredential
    | some rec =>
      if rec.is_active = false then .revoked
      else if isExpired rec now then .expired
      else .success rec.app_id

/-- Error taxonomy of `POST /events`; `internalError` is the generic 500
produced when the handler throws (notably `toISOString` on an
unparseable timestamp). -/
inductive IngestError where
  | missingCredential
  | rateLimited
  | invalidCredential
  | revoked
  | expired
  | invalidPayload
  | internalError
deriving DecidableEq, Repr

/-- `update api_keys set last_used_at = now where id = recId`. -/
def touchLastUsed (ks : List ApiKeyRecord) (recId : String) (now : Nat) :
    List ApiKeyRecord :=
  ks.map (fun k => if k.id = recId then { k with last_used_at := some now } else k)

/-- The row the ingestion handler inserts into `analytics_events`
(optional strings normalised by `|| null`, user-agent from the request
header, timestamp resolved to `tsv`). -/
def ingestEvent (req : IngestRequest) (rec : ApiKeyRecord) (tsv : Nat) :
    AnalyticsEvent :=
  { app_id := rec.app_id
    event := req.payload.event
    url := req.payload.url
    referrer := jsOrNull req.payload.referrer
    device := jsOrNull req.payload.device
    ip_address := jsOrNull req.payload.ipAddress
    user_agent := jsOrNull req.userAgentHeader
    browser := metaField req.payload.metadata (fun m => m.browser)
    os := metaField req.payload.metadata (fun m => m.os)
    screen_size := metaField req.payload.metadata (fun m => m.screenSize)
    timestamp := tsv }

/-- The `POST /events` handler (`src/unnamed/part_001`), in source order:
missing `x-api-key` header → hash → rate limit → key lookup by hash →
active flag → expiry → payload validation → event construction (optional
strings normalised by `|| null`, timestamp from the payload when truthy,
throwing on an unparseable value) → insert → last-used bookkeeping. -/
def ingest (hash : String → String) (jsParseDate : String → Option Nat)
    (now : Nat) (st : ServerState) (req : IngestRequest) :
    Except IngestError Unit × ServerState :=
  match req.apiKeyHeader with
  | none => (.error .missingCredential, st)
  | some apiKey =>
    let keyHash := hash apiKey
    let rl := checkRateLimit keyHash now st.rateLimits
    let st1 : ServerState := { st with rateLimits := rl.2 }
    if rl.1 = false then (.error .rateLimited, st1)
    else
      match lookupSingle st1.apiKeys keyHash with
      | none => (.error .invalidCredential, st1)
      | some rec =>
        if rec.is_active = false then (.error .revoked, st1)
        else if isExpired rec now then (.error .expired, st1)
        else if req.payload.event = "" ∨ req.payload.url = "" then
          (.error .invalidPayload, st1)
        else
          let ts : Except IngestError Nat :=
            match req.payload.timestamp with
            | none => .ok now
            | some s =>
              if s = "" then .ok now
              else
                match jsParseDate s with
                | some t => .ok t
                | none => .error .internalError
          match ts with
          | .error e => (.error e, st1)
          | .ok tsv =>
            (.ok (), { st1 with
              events := st1.events ++ [ingestEvent req rec tsv]
              apiKeys := touchLastUsed st1.apiKeys rec.id now })

/-! ## Key registration and revocation -/

/-- The `api_keys` row inserted by `auth-register`
(`is_active: true`, no expiry, `key_hash` the hash of the raw secret). -/
def issueKey (hash : String → String) (appId userId keyId rawSecret : String) :
    ApiKeyRecord :=
  { id := keyId
    app_id := appId
    user_id := userId
    key_hash := hash rawSecret
    is_active := true
    expires_at := none
    last_used_at := none
    revoked_at := none }

/-- Outcomes of `auth-revoke` past authentication: 400 for a missing
`api_key_id`, otherwise success (the update never reports a missing
row). -/
inductive RevokeResult where
  | ok
  | missingKeyId
deriving DecidableEq, Repr

/-- The `auth-revoke` handler past authentication:
`update api_keys set is_active = false, revoked_at = now
 where id = keyId and user_id = userId` — an update that matches zero
rows still succeeds. -/
def revokeKey (keys : List ApiKeyRecord) (userId keyId : String)
    (now : Nat) : RevokeResult × List ApiKeyRecord :=
  if keyId = "" then (.missingKeyId, keys)
  else
    (.ok, keys.map (fun k =>
      if k.id = keyId ∧ k.user_id = userId then
        { k with is_active := false, revoked_at := some now }
      else k))

/-! ## Aggregation: the summary endpoint (`src/unnamed/part_002`) -/

/-- A row of the `apps` table (the columns the summary endpoint reads). -/
structure App where
  id : String
  user_id : String
deriving DecidableEq, Repr

/-- The query string of `GET /events/summary`; `none` models an absent
parameter (`searchParams.get` returning `null`). Date bounds arrive
already converted to epoch milliseconds. -/
structure SummaryQuery where
  event : Option String
  startDate : Option Nat
  endDate : Option Nat
  appId : Option String
deriving DecidableEq, Repr

/-- The summary statistics body; `deviceData` is the JS object built by
the handler, an insertion-ordered association list. -/
structure Summary where
  count : Nat
  uniqueUsers : Nat
  deviceData : List (String × Nat)
deriving DecidableEq, Repr

/-- Error outcomes of the summary endpoint. -/
inductive SummaryError where
  | missingEvent
  | notFound
deriving DecidableEq, Repr

/-- JS truthiness of an optional string (`null`, absent and `""` are
falsy). -/
def jsTruthy (o : Option String) : Bool :=
  match o with
  | none => false
  | some s => s ≠ ""

/-- The event filter the handler pushes into the store query:
app in the resolved set, exact event-name match, and inclusive
`gte`/`lte` timestamp bounds when supplied. -/
def matchingEvents (events : List AnalyticsEvent) (appIds : List String)
    (evName : String) (start stop : Option Nat) : List AnalyticsEvent :=
  events.filter (fun e =>
    appIds.contains e.app_id && e.event = evName
      && (match start with | none => true | some t => t ≤ e.timestamp)
      && (match stop with | none => true | some t => e.timestamp ≤ t))

/-- `new Set(events.map(e => e.ip_address).filter(Boolean)).size`:
`filter(Boolean)` drops nulls and empty strings, the set counts distinct
values. -/
def uniqueUsersOf (events : List AnalyticsEvent) : Nat :=
  (((events.filterMap (fun e => e.ip_address)).filter
    (fun s => s ≠ "")).toFinset).card

/-- `deviceData[d] = (deviceData[d] || 0) + 1` on a JS object: update the
binding in place when present, else append a fresh binding at the end. -/
def histBump (m : List (String × Nat)) (d : String) : List (String × Nat) :=
  match m with
  | [] => [(d, 1)]
  | p :: rest => if p.1 = d then (p.1, p.2 + 1) :: rest else p :: histBump rest d

/-- One iteration of the `events.forEach` loop: bump the histogram when
the event's `device` is truthy (`if (e.device)`), else leave it. -/
def histStep (m : List (String × Nat)) (e : AnalyticsEvent) :
    List (String × Nat) :=
  match e.device with
  | none => m
  | some d => if d = "" then m else histBump m d

/-- The `events.forEach` loop of the handler: bump the histogram for each
event whose `device` is truthy. -/
def deviceHistogram (events : List AnalyticsEvent) : List (String × Nat) :=
  events.foldl histStep []

/-- Read a device's tally out of the histogram object (0 when absent). -/
def histCount (m : List (String × Nat)) (d : String) : Nat :=
  match m with
  | [] => 0
  | p :: rest => if p.1 = d then p.2 else histCount rest d

/-- The summary statistics block of the handler, applied to the rows the
store query returned. -/
def computeSummary (events : List AnalyticsEvent) : Summary :=
  { count := events.length
    uniqueUsers := uniqueUsersOf events
    deviceData := deviceHistogram events }

/-- The `GET /events/summary` handler past authentication
(`src/unnamed/part_002`): require `event`; with a truthy `app_id`,
`NotFound` unless the caller owns that app (a `.single()` ownership
probe); otherwise scope to all apps owned by the caller, returning the
zero summary early when there are none; then filter and aggregate. -/
def summarize (apps : List App) (events : List AnalyticsEvent)
    (userId : String) (q : SummaryQuery) : Except SummaryError Summary :=
  if jsTruthy q.event = false then .error .missingEvent
  else
    let evName := q.event.getD ""
    if jsTruthy q.appId = true then
      let aid := q.appId.getD ""
      match apps.filter (fun a => a.id = aid && a.user_id = userId) with
      | [_] =>
        .ok (computeSummary
          (matchingEvents events [aid] evName q.startDate q.endDate))
      | _ => .error .notFound
    else
      let owned := (apps.filter (fun a => a.user_id = userId)).map
        (fun a => a.id)
      if owned.isEmpty then .ok ⟨0, 0, []⟩
      else
        .ok (computeSummary
          (matchingEvents events owned evName q.startDate q.endDate))

/-! ## Ingestion-pipeline lemmas -/

/-- The conjunction of the checks an ingestion request passes before the
handler reaches the event-construction step. -/
def ingestReady (hash : String → String) (now : Nat) (st : ServerState)
    (req : IngestRequest) (k : String) (rec : ApiKeyRecord) : Prop :=
  req.apiKeyHeader = some k ∧
  (checkRateLimit (hash k) now st.rateLimits).1 = true ∧
  lookupSingle st.apiKeys (hash k) = some rec ∧
  rec.is_active = true ∧
  isExpired rec now = false ∧
  req.payload.event ≠ "" ∧ req.payload.url ≠ ""

instance (hash : String → String) (now : Nat) (st : ServerState)
    (req : IngestRequest) (k : String) (rec : ApiKeyRecord) :
    Decidable (ingestReady hash now st req k rec) := by
  unfold ingestReady
  infer_instance

/-- Once a request is ready, the handler's outcome is decided purely by
the payload timestamp: an absent or empty timestamp stores the event at
the server time, a parseable one at the parsed time, and an unparseable
one throws (the generic 500) and stores nothing. -/
theorem ingest_ready_run (hash : String → String)
    (jsParseDate : String → Option Nat) (now : Nat) (st : ServerState)
    (req : IngestRequest) (k : String) (rec : ApiKeyRecord)
    (hready : ingestReady hash now st req k rec) :
    ingest hash jsParseDate now st req =
      (match req.payload.timestamp with
        | none => .ok ()
        | some s =>
          if s = "" then .ok ()
          else
            match jsParseDate s with
            | some _ => .ok ()
            | none => .error .internalError,
       match req.payload.timestamp with
        | none =>
          { st with
            rateLimits := (checkRateLimit (hash k) now st.rateLimits).2
            events := st.events ++ [ingestEvent req rec now]
            apiKeys := touchLastUsed st.apiKeys rec.id now }
        | some s =>
          if s = "" then
            { st with
              rateLimits := (checkRateLimit (hash k) now st.rateLimits).2
              events := st.events ++ [ingestEvent req rec now]
              apiKeys := touchLastUsed st.apiKeys rec.id now }
          else
            match jsParseDate s with
            | some t =>
              { st with
                rateLimits := (checkRateLimit (hash k) now st.rateLimits).2
                events := st.events ++ [ingestEvent req rec t]
                apiKeys := touchLastUsed st.apiKeys rec.id now }
            | none =>
              { st with
                rateLimits := (checkRateLimit (hash k) now st.rateLimits).2 }) := by
  obtain ⟨hk, hrl, hlook, hact, hexp, hev, hurl⟩ := hready
  have hnv : ¬ (req.payload.event = "" ∨ req.payload.url = "") := by
    rintro (h | h) <;> [exact hev h; exact hurl h]
  simp only [ingest, hk]
  simp only [hrl, Bool.true_eq_false, if_false, hlook, hact,
    Bool.true_eq_false, if_false, hexp, Bool.false_eq_true, if_false,
    hnv, if_false]
  rcases hts : req.payload.timestamp with _ | s
  · rfl
  · by_cases hs : s = ""
    · simp [hs]
    · rcases hp : jsParseDate s with _ | t
      · simp [hs, hp]
      · simp [hs, hp]

/-! ## Concrete example data for closed instances -/

/-- A well-formed ingestion payload used by the closed instances. -/
def basePayload : EventPayload :=
  { event := "click"
    url := "https://a.example"
    referrer := none
    device := none
    ipAddress := none
    timestamp := none
    metadata := none }

/-- A server state whose rate-limit window for key `"crk1"` is already
exhausted (count 100, reset instant 1000) and whose key table is empty. -/
def exhaustedState : ServerState :=
  { apiKeys := []
    events := []
    rateLimits := [("crk1", ⟨100, 1000⟩)] }

/-- An active, never-expiring stored key whose hash (under the identity
hash used in the closed instances) is `"sec1"`. -/
def activeKey : ApiKeyRecord :=
  { id := "id1"
    app_id := "app1"
    user_id := "u1"
    key_hash := "sec1"
    is_active := true
    expires_at := none
    last_used_at := none
    revoked_at := none }

/-- A server state holding just `activeKey`, no events, fresh limiter. -/
def activeState : ServerState :=
  { apiKeys := [activeKey]
    events := []
    rateLimits := [] }

/-- A request presenting the secret of `activeKey`. -/
def baseReq : IngestRequest :=
  { apiKeyHeader := some "sec1"
    userAgentHeader := none
    payload := basePayload }

/-- Scenario event: a mobile click from 1.1.1.1. -/
def wEvent1 : AnalyticsEvent :=
  { app_id := "app1"
    event := "click"
    url := "https://a.example"
    referrer := none
    device := some "mobile"
    ip_address := some "1.1.1.1"
    user_agent := none
    browser := none
    os := none
    screen_size := none
    timestamp := 1 }

/-- Scenario event: a second mobile click from 1.1.1.1. -/
def wEvent2 : AnalyticsEvent :=
  { wEvent1 with timestamp := 2 }

/-- Scenario event: a desktop click from 2.2.2.2. -/
def wEvent3 : AnalyticsEvent :=
  { wEvent1 with
    device := some "desktop"
    ip_address := some "2.2.2.2"
    timestamp := 3 }

/-- The spec scenario's stored events. -/
def wEvents : List AnalyticsEvent := [wEvent1, wEvent2, wEvent3]

/-- A request presenting the secret of `activeKey` whose optional payload
fields are all the empty string. -/
def emptyFieldsReq : IngestRequest :=
  { apiKeyHeader := some "sec1"
    userAgentHeader := none
    payload :=
      { basePayload with
        referrer := some ""
        device := some ""
        ipAddress := some "" } }

/-! ## Claim C1: ordering of authentication and rate limiting -/

/-- C1 counterexample: with the window for the credential's hash already
exhausted, a request whose credential matches no stored key (the key
table is empty, so authentication would fail with InvalidCredential) is
answered with RateLimited — the rate limiter runs before the key lookup. -/
theorem rateLimited_with_invalid_credential :
    (ingest (fun s => s) (fun _ => none) 500 exhaustedState
      { apiKeyHeader := some "crk1"
        userAgentHeader := none
        payload := basePayload }).1 = .error .rateLimited
    ∧ lookupSingle exhaustedState.apiKeys "crk1" = none := by
  constructor <;> rfl

/-- C1 amended: the handler checks for a missing credential first, but
then runs the rate limiter on the credential's hash before any key-store
check, so RateLimited short-circuits ahead of
InvalidCredential/Revoked/Expired; only when the limiter admits does the
outcome follow the authenticator's order. -/
theorem ingest_check_order (hash : String → String)
    (jsParseDate : String → Option Nat) (now : Nat) (st : ServerState)
    (req : IngestRequest) :
    (req.apiKeyHeader = none →
      ingest hash jsParseDate now st req = (.error .missingCredential, st))
    ∧ (∀ k, req.apiKeyHeader = some k →
        (checkRateLimit (hash k) now st.rateLimits).1 = false →
        (ingest hash jsParseDate now st req).1 = .error .rateLimited)
    ∧ (∀ k, req.apiKeyHeader = some k →
        (checkRateLimit (hash k) now st.rateLimits).1 = true →
        lookupSingle st.apiKeys (hash k) = none →
        (ingest hash jsParseDate now st req).1 = .error .invalidCredential)
    ∧ (∀ k rec, req.apiKeyHeader = some k →
        (checkRateLimit (hash k) now st.rateLimits).1 = true →
        lookupSingle st.apiKeys (hash k) = some rec →
        rec.is_active = false →
        (ingest hash jsParseDate now st req).1 = .error .revoked)
    ∧ (∀ k rec, req.apiKeyHeader = some k →
        (checkRateLimit (hash k) now st.rateLimits).1 = true →
        lookupSingle st.apiKeys (hash k) = some rec →
        rec.is_active = true → isExpired rec now = true →
        (ingest hash jsParseDate now st req).1 = .error .expired) := by
  refine ⟨?_, ?_, ?_, ?_, ?_⟩
  · intro hk
    simp [ingest, hk]
  · intro k hk hrl
    simp [ingest, hk, hrl]
  · intro k hk hrl hlook
    simp [ingest, hk, hrl, hlook]
  · intro k rec hk hrl hlook hact
    simp [ingest, hk, hrl, hlook, hact]
  · intro k rec hk hrl hlook hact hexp
    simp [ingest, hk, hrl, hlook, hact, hexp]

/-- Closed instance of `ingest_check_order`: a missing header is answered
with MissingCredential, and an exhausted window is answered with
RateLimited. -/
theorem ingest_check_order_witness :
    (ingest (fun s => s) (fun _ => none) 500 exhaustedState
      { apiKeyHeader := none
        userAgentHeader := none
        payload := basePayload })
      = (.error .missingCredential, exhaustedState)
    ∧ (ingest (fun s => s) (fun _ => none) 500 exhaustedState
      { apiKeyHeader := some "crk1"
        userAgentHeader := none
        payload := basePayload }).1 = .error .rateLimited := by
  constructor
  · exact (ingest_check_order (fun s => s) (fun _ => none) 500
      exhaustedState
      { apiKeyHeader := none
        userAgentHeader := none
        payload := basePayload }).1 rfl
  · exact (ingest_check_order (fun s => s) (fun _ => none) 500
      exhaustedState
      { apiKeyHeader := some "crk1"
        userAgentHeader := none
        payload := basePayload }).2.1 "crk1" rfl (by decide)

/-! ## Claim C3: event-timestamp resolution -/

/-- C3 counterexample: a request that passes every check but carries an
unparseable timestamp string is answered with the generic 500
(`toISOString` throws on an Invalid Date) and the event is NOT stored,
contradicting "an event with an unparseable timestamp string is still
stored, with the server time". -/
theorem unparseable_timestamp_not_stored :
    (ingest (fun s => s) (fun _ => none) 10 activeState
      { baseReq with
        payload := { basePayload with timestamp := some "not-a-date" } }).1
      = .error .internalError
    ∧ (ingest (fun s => s) (fun _ => none) 10 activeState
      { baseReq with
        payload := { basePayload with timestamp := some "not-a-date" } }).2.events
      = [] := by
  constructor <;> rfl

/-- C3 amended: for a request that passes every earlier check, an absent
or empty payload timestamp stores the event with the server-received
time, a present parseable one stores it with the parsed time, and a
present unparseable one makes the request fail with the generic 500 and
stores nothing. -/
theorem ingest_timestamp_resolution (hash : String → String)
    (jsParseDate : String → Option Nat) (now : Nat) (st : ServerState)
    (req : IngestRequest) (k : String) (rec : ApiKeyRecord)
    (hready : ingestReady hash now st req k rec) :
    ((req.payload.timestamp = none ∨ req.payload.timestamp = some "") →
      (ingest hash jsParseDate now st req).1 = .ok ()
      ∧ (ingest hash jsParseDate now st req).2.events
        = st.events ++ [ingestEvent req rec now]
      ∧ (ingestEvent req rec now).timestamp = now)
    ∧ (∀ s t, req.payload.timestamp = some s → s ≠ "" →
        jsParseDate s = some t →
        (ingest hash jsParseDate now st req).1 = .ok ()
        ∧ (ingest hash jsParseDate now st req).2.events
          = st.events ++ [ingestEvent req rec t]
        ∧ (ingestEvent req rec t).timestamp = t)
    ∧ (∀ s, req.payload.timestamp = some s → s ≠ "" →
        jsParseDate s = none →
        (ingest hash jsParseDate now st req).1 = .error .internalError
        ∧ (ingest hash jsParseDate now st req).2.events = st.events) := by
  have hrun := ingest_ready_run hash jsParseDate now st req k rec hready
  refine ⟨?_, ?_, ?_⟩
  · rintro (h | h) <;> rw [hrun] <;> simp [h, ingestEvent]
  · intro s t hs hne hp
    rw [hrun]
    simp [hs, hne, hp, ingestEvent]
  · intro s hs hne hp
    rw [hrun]
    simp [hs, hne, hp]

/-- Closed instance of `ingest_timestamp_resolution`: a payload without a
timestamp is stored at the server time. -/
theorem ingest_timestamp_resolution_witness :
    (ingest (fun s => s) (fun _ => none) 10 activeState baseReq).1 = .ok ()
    ∧ (ingest (fun s => s) (fun _ => none) 10 activeState baseReq).2.events
      = activeState.events ++ [ingestEvent baseReq activeKey 10]
    ∧ (ingestEvent baseReq activeKey 10).timestamp = 10 :=
  (ingest_timestamp_resolution (fun s => s) (fun _ => none) 10 activeState
    baseReq "sec1" activeKey (by decide)).1 (Or.inl rfl)

/-! ## Claim C5: authenticator key checks -/

/-- C5: when the presented credential's hash matches a stored key, the
checks run in source order — Revoked when the active flag is false (even
for an expired key), Expired when a non-null expiry lies strictly before
now, success with the owning app otherwise (a null expiry never
expires). -/
theorem authenticate_key_checks (hash : String → String)
    (keys : List ApiKeyRecord) (now : Nat) (c : String)
    (rec : ApiKeyRecord)
    (hlookup : lookupSingle keys (hash c) = some rec) :
    (rec.is_active = false →
      authenticate hash keys now (some c) = .revoked)
    ∧ (rec.is_active = true → ∀ t, rec.expires_at = some t → t < now →
        authenticate hash keys now (some c) = .expired)
    ∧ (rec.is_active = true → rec.expires_at = none →
        authenticate hash keys now (some c) = .success rec.app_id)
    ∧ (rec.is_active = true → ∀ t, rec.expires_at = some t → ¬ t < now →
        authenticate hash keys now (some c) = .success rec.app_id) := by
  refine ⟨?_, ?_, ?_, ?_⟩
  · intro hact
    simp [authenticate, hlookup, hact]
  · intro hact t het hlt
    simp [authenticate, hlookup, hact, isExpired, het, hlt]
  · intro hact hnone
    simp [authenticate, hlookup, hact, isExpired, hnone]
  · intro hact t het hge
    simp [authenticate, hlookup, hact, isExpired, het, hge]

/-- Closed instance of `authenticate_key_checks`: a revoked-and-expired
key is rejected as Revoked, and an active key with null expiry
authenticates to its owning app. -/
theorem authenticate_key_checks_witness :
    authenticate (fun s => s)
      [{ activeKey with is_active := false, expires_at := some 3 }] 5
      (some "sec1") = .revoked
    ∧ authenticate (fun s => s) [activeKey] 5 (some "sec1")
      = .success "app1" := by
  constructor
  · exact (authenticate_key_checks (fun s => s)
      [{ activeKey with is_active := false, expires_at := some 3 }] 5 "sec1"
      { activeKey with is_active := false, expires_at := some 3 }
      (by decide)).1 rfl
  · exact (authenticate_key_checks (fun s => s) [activeKey] 5 "sec1"
      activeKey (by decide)).2.2.1 rfl rfl

/-- Closed instance of `rate_limit_window_behavior`: 101 calls at time 0
for a fresh key yield 100 admissions then a rejection. -/
theorem rate_limit_window_behavior_witness :
    (runCalls "k" [] (0 :: List.replicate RATE_LIMIT 0)).1
      = List.replicate RATE_LIMIT true ++ [false] :=
  (rate_limit_window_behavior "k" 0 (List.replicate RATE_LIMIT 0) []
    rfl (by decide) (by decide)).1

/-- Closed instance of `rate_limiter_state_invariant`: a rejected call
leaves the exhausted window untouched, and a later in-window call is
also rejected. -/
theorem rate_limiter_state_invariant_witness :
    (checkRateLimit "k" 5 [("k", ⟨100, 10⟩)]).2 = [("k", ⟨100, 10⟩)]
    ∧ (checkRateLimit "k" 7 [("k", ⟨100, 10⟩)]).1 = false := by
  constructor
  · exact rate_limiter_state_invariant.2.1 "k" 5 [("k", ⟨100, 10⟩)]
      (by decide)
  · exact rate_limiter_state_invariant.2.2 "k" 5 7 [("k", ⟨100, 10⟩)]
      ⟨100, 10⟩ rfl (by decide) (by decide)

/-! ## Claim C4: key revocation -/

/-- C4 counterexample: revoking a key identity that matches no stored key
(the key table is empty) still returns the success acknowledgement — the
scoped update touches zero rows and the handler never reports NotFound. -/
theorem revoke_missing_key_still_acknowledged :
    revokeKey ([] : List ApiKeyRecord) "u1" "key9" 0
      = (.ok, ([] : List ApiKeyRecord)) := by rfl

/-- C4 amended: for any non-empty key identity, revocation returns the
acknowledgement unconditionally; every stored key matching the identity
and owned by the caller reappears with `is_active = false` and
`revoked_at = now`, every other key reappears unchanged, and no NotFound
outcome exists — a missing key is acknowledged exactly like a revoked
one. -/
theorem revokeKey_update_semantics (keys : List ApiKeyRecord)
    (userId keyId : String) (now : Nat) (h : keyId ≠ "") :
    (revokeKey keys userId keyId now).1 = .ok
    ∧ (∀ k ∈ keys, k.id = keyId → k.user_id = userId →
        { k with is_active := false, revoked_at := some now }
          ∈ (revokeKey keys userId keyId now).2)
    ∧ (∀ k ∈ keys, ¬ (k.id = keyId ∧ k.user_id = userId) →
        k ∈ (revokeKey keys userId keyId now).2)
    ∧ (revokeKey keys userId keyId now).2.length = keys.length := by
  refine ⟨?_, ?_, ?_, ?_⟩
  · simp [revokeKey, h]
  · intro k hk hid huser
    have hmem := List.mem_map_of_mem
      (fun k => if k.id = keyId ∧ k.user_id = userId then
        { k with is_active := false, revoked_at := some now } else k) hk
    simp only [revokeKey, h, if_neg, if_false]
    simpa [hid, huser] using hmem
  · intro k hk hcond
    have hmem := List.mem_map_of_mem
      (fun k => if k.id = keyId ∧ k.user_id = userId then
        { k with is_active := false, revoked_at := some now } else k) hk
    simp only [revokeKey, h, if_neg, if_false]
    simpa [hcond] using hmem
  · simp [revokeKey, h]

/-- Closed instance of `revokeKey_update_semantics`: revoking `activeKey`
by its owner flips it to inactive with the revocation time recorded. -/
theorem revokeKey_update_semantics_witness :
    (revokeKey [activeKey] "u1" "id1" 42).1 = .ok
    ∧ { activeKey with is_active := false, revoked_at := some 42 }
        ∈ (revokeKey [activeKey] "u1" "id1" 42).2 := by
  constructor
  · exact (revokeKey_update_semantics [activeKey] "u1" "id1" 42
      (by decide)).1
  · exact (revokeKey_update_semantics [activeKey] "u1" "id1" 42
      (by decide)).2.1 activeKey (by simp) rfl rfl

/-! ## Claim C8: secret round-trip -/

/-- `.single()` on a hash lookup finds the head key when it carries the
hash and nothing else does. -/
theorem lookupSingle_cons_unique (key : ApiKeyRecord)
    (rest : List ApiKeyRecord) (h : String)
    (hkey : key.key_hash = h)
    (hrest : ∀ k ∈ rest, k.key_hash ≠ h) :
    lookupSingle (key :: rest) h = some key := by
  have hfil : rest.filter (fun k => k.key_hash = h) = [] := by
    rw [List.filter_eq_nil_iff]
    intro k hk
    simp [hrest k hk]
  simp [lookupSingle, List.filter_cons, hkey, hfil]

/-- C8: the raw secret issued at registration hashes to the stored key
hash, so presenting it authenticates to the owning app while the key is
active; after the owner revokes the key, the same secret is rejected
with Revoked. -/
theorem secret_roundtrip (hash : String → String)
    (appId userId keyId rawSecret : String) (rest : List ApiKeyRecord)
    (now now2 now3 : Nat)
    (hUnique : ∀ k ∈ rest, k.key_hash ≠ hash rawSecret)
    (hKeyId : keyId ≠ "") :
    (issueKey hash appId userId keyId rawSecret).key_hash = hash rawSecret
    ∧ authenticate hash (issueKey hash appId userId keyId rawSecret :: rest)
        now (some rawSecret) = .success appId
    ∧ authenticate hash
        ((revokeKey (issueKey hash appId userId keyId rawSecret :: rest)
          userId keyId now2).2) now3 (some rawSecret) = .revoked := by
  refine ⟨rfl, ?_, ?_⟩
  · have hl := lookupSingle_cons_unique
      (issueKey hash appId userId keyId rawSecret) rest (hash rawSecret)
      rfl hUnique
    simp only [authenticate]
    rw [hl]
    simp [issueKey, isExpired]
  · have hrev : (revokeKey (issueKey hash appId userId keyId rawSecret :: rest)
        userId keyId now2).2
      = { issueKey hash appId userId keyId rawSecret with
          is_active := false, revoked_at := some now2 }
        :: rest.map (fun k =>
            if k.id = keyId ∧ k.user_id = userId then
              { k with is_active := false, revoked_at := some now2 }
            else k) := by
      simp [revokeKey, hKeyId, issueKey]
    rw [hrev]
    have hrest' : ∀ k ∈ rest.map (fun k =>
        if k.id = keyId ∧ k.user_id = userId then
          { k with is_active := false, revoked_at := some now2 }
        else k), k.key_hash ≠ hash rawSecret := by
      intro k' hk'
      rcases List.mem_map.mp hk' with ⟨k, hk, rfl⟩
      by_cases hc : k.id = keyId ∧ k.user_id = userId
      · simpa [hc] using hUnique k hk
      · simpa [hc] using hUnique k hk
    have hl := lookupSingle_cons_unique
      { issueKey hash appId userId keyId rawSecret with
        is_active := false, revoked_at := some now2 }
      (rest.map (fun k =>
        if k.id = keyId ∧ k.user_id = userId then
          { k with is_active := false, revoked_at := some now2 }
        else k)) (hash rawSecret) (by simp [issueKey]) hrest'
    simp only [authenticate]
    rw [hl]
    simp

/-- Closed instance of `secret_roundtrip`: the freshly issued secret
authenticates, and fails with Revoked after revocation. -/
theorem secret_roundtrip_witness :
    authenticate (fun s => s)
      [issueKey (fun s => s) "app1" "u1" "id1" "raw1"] 5
      (some "raw1") = .success "app1"
    ∧ authenticate (fun s => s)
        ((revokeKey [issueKey (fun s => s) "app1" "u1" "id1" "raw1"]
          "u1" "id1" 6).2) 7 (some "raw1") = .revoked := by
  constructor
  · exact (secret_roundtrip (fun s => s) "app1" "u1" "id1" "raw1" [] 5 6 7
      (by simp) (by decide)).2.1
  · exact (secret_roundtrip (fun s => s) "app1" "u1" "id1" "raw1" [] 5 6 7
      (by simp) (by decide)).2.2

/-! ## Claim C6: summary statistics -/

theorem histCount_histBump_self (m : List (String × Nat)) (d : String) :
    histCount (histBump m d) d = histCount m d + 1 := by
  induction m with
  | nil => simp [histBump, histCount]
  | cons p rest ih =>
    by_cases hp : p.1 = d
    · simp [histBump, histCount, hp]
    · simp [histBump, histCount, hp, ih]

theorem histCount_histBump_other (m : List (String × Nat)) (d d' : String)
    (hne : d' ≠ d) : histCount (histBump m d) d' = histCount m d' := by
  induction m with
  | nil =>
    have hd : ¬ d = d' := fun h => hne h.symm
    simp [histBump, histCount, hd]
  | cons p rest ih =>
    by_cases hp : p.1 = d
    · have hd : ¬ d = d' := fun h => hne h.symm
      have hpd : ¬ p.1 = d' := by rw [hp]; exact hd
      simp [histBump, histCount, hp, hpd, hd]
    · by_cases hp' : p.1 = d'
      · simp [histBump, histCount, hp, hp', hne]
      · simp [histBump, histCount, hp, hp', ih]

/-- The forEach loop adds, for every device value, exactly the number of
its occurrences among events with that (non-empty) device. -/
theorem histCount_fold (events : List AnalyticsEvent) :
    ∀ (m : List (String × Nat)) (d : String),
    (∀ e ∈ events, e.device ≠ some "") →
    histCount (events.foldl histStep m) d
      = histCount m d + (events.filter (fun e => e.device = some d)).length := by
  induction events with
  | nil => intro m d _; simp
  | cons e rest ih =>
    intro m d hdev
    have hdev' : ∀ x ∈ rest, x.device ≠ some "" :=
      fun x hx => hdev x (by simp [hx])
    have hde : e.device ≠ some "" := hdev e (by simp)
    rcases hd : e.device with _ | dv
    · have hstep : histStep m e = m := by simp [histStep, hd]
      simp only [List.foldl_cons, hstep, List.filter_cons, hd]
      simpa using ih m d hdev'
    · have hdv : dv ≠ "" := by
        intro h
        rw [h] at hd
        exact hde hd
      have hstep : histStep m e = histBump m dv := by
        simp [histStep, hd, hdv]
      by_cases hdd : dv = d
      · subst hdd
        simp only [List.foldl_cons, hstep, List.filter_cons, hd]
        have hihl := ih (histBump m dv) dv hdev'
        rw [hihl, histCount_histBump_self]
        simp
        omega
      · simp only [List.foldl_cons, hstep, List.filter_cons, hd]
        have := ih (histBump m dv) d hdev'
        rw [this, histCount_histBump_other m dv d (fun h => hdd h.symm)]
        have hne : ¬ (some dv = some d) := by simp [hdd]
        simp [hne]

/-- C6: over any list of matching stored events (none of which carries an
empty-string ip or device, which ingestion never stores), the summary's
count is the number of events, uniqueUsers is the cardinality of the set
of distinct non-null ip addresses, and the device histogram maps every
device value to its occurrence count (null-device events are absent from
the histogram yet counted in count). -/
theorem summary_statistics (events : List AnalyticsEvent)
    (appIds : List String) (evName : String) (start stop : Option Nat)
    (hip : ∀ e ∈ matchingEvents events appIds evName start stop,
      e.ip_address ≠ some "")
    (hdev : ∀ e ∈ matchingEvents events appIds evName start stop,
      e.device ≠ some "") :
    (computeSummary (matchingEvents events appIds evName start stop)).count
      = (matchingEvents events appIds evName start stop).length
    ∧ (computeSummary
        (matchingEvents events appIds evName start stop)).uniqueUsers
      = ((matchingEvents events appIds evName start stop).filterMap
          (fun e => e.ip_address)).toFinset.card
    ∧ ∀ d, histCount (computeSummary
          (matchingEvents events appIds evName start stop)).deviceData d
      = ((matchingEvents events appIds evName start stop).filter
          (fun e => e.device = some d)).length := by
  refine ⟨rfl, ?_, ?_⟩
  · have hfil : ((matchingEvents events appIds evName start stop).filterMap
        (fun e => e.ip_address)).filter (fun s => s ≠ "")
        = (matchingEvents events appIds evName start stop).filterMap
            (fun e => e.ip_address) := by
      rw [List.filter_eq_self]
      intro a ha
      rcases List.mem_filterMap.mp ha with ⟨e, he, hae⟩
      have hne : a ≠ "" := by
        intro h
        rw [h] at hae
        exact hip e he hae
      simpa using hne
    show (((matchingEvents events appIds evName start stop).filterMap
        (fun e => e.ip_address)).filter (fun s => s ≠ "")).toFinset.card = _
    rw [hfil]
  · intro d
    show histCount ((matchingEvents events appIds evName start stop).foldl
      histStep []) d = _
    rw [histCount_fold (matchingEvents events appIds evName start stop)
      [] d hdev]
    simp [histCount]

/-- Closed instance of `summary_statistics` on the spec's scenario:
devices mobile, mobile, desktop with ips 1.1.1.1, 1.1.1.1, 2.2.2.2. -/
theorem summary_statistics_witness :
    (computeSummary (matchingEvents wEvents ["app1"] "click" none none)).count
      = (matchingEvents wEvents ["app1"] "click" none none).length
    ∧ (computeSummary
        (matchingEvents wEvents ["app1"] "click" none none)).uniqueUsers
      = ((matchingEvents wEvents ["app1"] "click" none none).filterMap
          (fun e => e.ip_address)).toFinset.card
    ∧ histCount (computeSummary
          (matchingEvents wEvents ["app1"] "click" none none)).deviceData
        "mobile"
      = ((matchingEvents wEvents ["app1"] "click" none none).filter
          (fun e => e.device = some "mobile")).length := by
  have h := summary_statistics wEvents ["app1"] "click" none none
    (by decide) (by decide)
  exact ⟨h.1, h.2.1, h.2.2 "mobile"⟩

/-! ## Claim C7: summary scoping -/

/-- C7: with an `app_id` that exists but is owned by someone else, the
summary endpoint answers NotFound (the ownership probe matches no row);
with no `app_id` and a caller owning no apps, it answers the zero-valued
summary with success rather than an error. -/
theorem summarize_scoping (apps : List App) (events : List AnalyticsEvent)
    (userId : String) (q : SummaryQuery)
    (hq : jsTruthy q.event = true) :
    (∀ aid, q.appId = some aid → aid ≠ "" →
      (∃ a ∈ apps, a.id = aid) →
      (∀ a ∈ apps, ¬ (a.id = aid ∧ a.user_id = userId)) →
      summarize apps events userId q = .error .notFound)
    ∧ (jsTruthy q.appId = false →
      (∀ a ∈ apps, a.user_id ≠ userId) →
      summarize apps events userId q = .ok ⟨0, 0, []⟩) := by
  constructor
  · intro aid haid hne _hex hnotowned
    have htr : jsTruthy (some aid) = true := by simp [jsTruthy, hne]
    have hfil : apps.filter (fun a => a.id = aid && a.user_id = userId)
        = [] := by
      rw [List.filter_eq_nil_iff]
      intro a ha
      have hna := hnotowned a ha
      simp only [Bool.and_eq_true, decide_eq_true_eq]
      tauto
    simp [summarize, hq, haid, htr, hfil]
  · intro hfalse hnone
    have hfil : apps.filter (fun a => a.user_id = userId) = [] := by
      rw [List.filter_eq_nil_iff]
      intro a ha
      simp [hnone a ha]
    simp [summarize, hq, hfalse, hfil]

/-- Closed instance of `summarize_scoping`: an app owned by another
caller yields NotFound; a caller with no apps gets the zero summary. -/
theorem summarize_scoping_witness :
    summarize [⟨"appX", "other"⟩] [] "u1"
      ⟨some "click", none, none, some "appX"⟩ = .error .notFound
    ∧ summarize [⟨"appX", "other"⟩] [] "u1"
      ⟨some "click", none, none, none⟩ = .ok ⟨0, 0, []⟩ := by
  constructor
  · exact (summarize_scoping [⟨"appX", "other"⟩] [] "u1"
      ⟨some "click", none, none, some "appX"⟩ (by decide)).1 "appX" rfl
      (by decide) ⟨⟨"appX", "other"⟩, by simp, rfl⟩ (by decide)
  · exact (summarize_scoping [⟨"appX", "other"⟩] [] "u1"
      ⟨some "click", none, none, none⟩ (by decide)).2 (by decide) (by decide)

/-! ## Claim C10: empty-string optional fields -/

/-- C10: a successfully ingested event whose `referrer`, `device` or
`ipAddress` was submitted as the empty string is stored with null in that
column, and appending an event with null device and null ip to any
matched list increments the summary's count while leaving uniqueUsers and
the device histogram unchanged. -/
theorem empty_string_fields_normalized (hash : String → String)
    (jsParseDate : String → Option Nat) (now : Nat) (st : ServerState)
    (req : IngestRequest) (k : String) (rec : ApiKeyRecord)
    (hready : ingestReady hash now st req k rec)
    (hok : (ingest hash jsParseDate now st req).1 = .ok ()) :
    (∃ tsv, (ingest hash jsParseDate now st req).2.events
        = st.events ++ [ingestEvent req rec tsv])
    ∧ (req.payload.device = some "" →
        ∀ tsv, (ingestEvent req rec tsv).device = none)
    ∧ (req.payload.ipAddress = some "" →
        ∀ tsv, (ingestEvent req rec tsv).ip_address = none)
    ∧ (req.payload.referrer = some "" →
        ∀ tsv, (ingestEvent req rec tsv).referrer = none)
    ∧ (∀ (evs : List AnalyticsEvent) (e : AnalyticsEvent),
        e.device = none → e.ip_address = none →
        (computeSummary (evs ++ [e])).count = (computeSummary evs).count + 1
        ∧ (computeSummary (evs ++ [e])).uniqueUsers
          = (computeSummary evs).uniqueUsers
        ∧ (computeSummary (evs ++ [e])).deviceData
          = (computeSummary evs).deviceData) := by
  have hrun := ingest_ready_run hash jsParseDate now st req k rec hready
  refine ⟨?_, ?_, ?_, ?_, ?_⟩
  · rcases hts : req.payload.timestamp with _ | s
    · exact ⟨now, by rw [hrun]; simp [hts]⟩
    · by_cases hs : s = ""
      · exact ⟨now, by rw [hrun]; simp [hts, hs]⟩
      · rcases hp : jsParseDate s with _ | t
        · exfalso
          rw [hrun] at hok
          simp [hts, hs, hp] at hok
        · exact ⟨t, by rw [hrun]; simp [hts, hs, hp]⟩
  · intro hdev tsv
    simp [ingestEvent, jsOrNull, hdev]
  · intro hip tsv
    simp [ingestEvent, jsOrNull, hip]
  · intro href tsv
    simp [ingestEvent, jsOrNull, href]
  · intro evs e hdev hip
    refine ⟨?_, ?_, ?_⟩
    · simp [computeSummary]
    · simp [computeSummary, uniqueUsersOf, List.filterMap_append, hip]
    · simp [computeSummary, deviceHistogram, List.foldl_append, histStep,
        hdev]

/-- Closed instance of `empty_string_fields_normalized`: an event
submitted with empty-string referrer, device and ip is stored with nulls
in those columns. -/
theorem empty_string_fields_normalized_witness :
    (∃ tsv, (ingest (fun s => s) (fun _ => none) 10 activeState
        emptyFieldsReq).2.events
      = activeState.events ++ [ingestEvent emptyFieldsReq activeKey tsv])
    ∧ (∀ tsv, (ingestEvent emptyFieldsReq activeKey tsv).device = none)
    ∧ (∀ tsv, (ingestEvent emptyFieldsReq activeKey tsv).ip_address = none)
    ∧ (∀ tsv, (ingestEvent emptyFieldsReq activeKey tsv).referrer = none) := by
  have h := empty_string_fields_normalized (fun s => s) (fun _ => none) 10
    activeState emptyFieldsReq "sec1" activeKey (by decide) (by rfl)
  exact ⟨h.1, h.2.1 rfl, h.2.2.1 rfl, h.2.2.2.1 rfl⟩

end AnalyticsHub
